import Mathlib

/-!
# SportsbooksCRM — verification of the financial-entry core

Shallow embedding of the parts of the SportsbooksCRM repository that the
spec's claims are about: the entry profit/loss computation (player account
entry page), the account lifecycle read-time projection (admin accounts
page), the account/agent aggregation (admin dashboard), the account
filtering layer, and the account creation form logic.

JavaScript values that can sit in a numeric form field are modelled by
`JSVal` (a rational number, the empty string, or NaN); the `||`-coercions
of the source are modelled explicitly; JS arithmetic that can produce NaN
returns `Option ℚ` with `none` standing for NaN.
-/

namespace SportsCRM

/-- The account status strings of the source:
`'active' | 'inactive' | 'unused' | 'locked'`. -/
inductive Status
  | active
  | inactive
  | unused
  | locked
deriving DecidableEq, Repr

/-- The account type strings of the source: `'pph' | 'legal'`. -/
inductive AccType
  | pph
  | legal
deriving DecidableEq, Repr

/-- A JavaScript value as it can appear in an entry's numeric field after
`handleInputChange`: a number, the empty string (the source stores `''`
for a blank input), or NaN. -/
inductive JSVal
  | num (q : ℚ)
  | emptyStr
  | nan
deriving DecidableEq, Repr

/-- JS truthiness of such a value: `0`, `''` and `NaN` are falsy. -/
def JSVal.truthy : JSVal → Bool
  | .num q => q != 0
  | .emptyStr => false
  | .nan => false

/-- The source idiom `v || 0`. -/
def JSVal.orZero (v : JSVal) : JSVal :=
  if v.truthy then v else .num 0

/-- JS numeric conversion of such a value (ToNumber): `''` converts to `0`,
NaN stays NaN (`none`). -/
def JSVal.toNum : JSVal → Option ℚ
  | .num q => some q
  | .emptyStr => some 0
  | .nan => none

/-- The plain numeric reading used by the spec's contract: a blank (or NaN)
field counts as `0`, a numeric field as its value. -/
def JSVal.asNumber : JSVal → ℚ
  | .num q => q
  | .emptyStr => 0
  | .nan => 0

/-- JS subtraction on possibly-NaN numbers: NaN propagates. -/
def jsSub : Option ℚ → Option ℚ → Option ℚ
  | some a, some b => some (a - b)
  | _, _ => none

/-- JS addition on possibly-NaN numbers: NaN propagates. -/
def jsAdd : Option ℚ → Option ℚ → Option ℚ
  | some a, some b => some (a + b)
  | _, _ => none

/-- The profit/loss recomputation of the account-entry page
(`AccountEntry`, the useEffect over the four balance fields):
`(endingBalance || 0) - (startingBalance || 0) + (withdrawal || 0) -
(refillAmount || 0)`, evaluated left to right with JS numeric coercion. -/
def computeProfitLoss (startingBalance endingBalance withdrawal refillAmount : JSVal) :
    Option ℚ :=
  jsSub
    (jsAdd
      (jsSub endingBalance.orZero.toNum startingBalance.orZero.toNum)
      withdrawal.orZero.toNum)
    refillAmount.orZero.toNum

/-- The profit/loss recomputation of the player dashboard's `handleEditEntry`:
`editingEntry.endingBalance - editingEntry.startingBalance +
editingEntry.withdrawal - editingEntry.refillAmount` on plain numbers. -/
def handleEditEntryProfitLoss (startingBalance endingBalance withdrawal refillAmount : ℚ) : ℚ :=
  endingBalance - startingBalance + withdrawal - refillAmount

/-- The equivalence classes of a DOM input string that the account-entry
page's `handleInputChange` distinguishes: the empty string, a non-empty
string whose `Number(...)` value is the number `q`, and a non-empty string
whose `Number(...)` is NaN. -/
inductive InputStr
  | empty
  | numeric (q : ℚ)
  | nonNumeric
deriving DecidableEq, Repr

/-- `handleInputChange` of the account-entry page, on a numeric field:
`value === '' ? '' : isNaN(Number(value)) ? prev[field] : Number(value)`. -/
def handleInputChange (prev : JSVal) : InputStr → JSVal
  | .empty => .emptyStr
  | .numeric q => .num q
  | .nonNumeric => prev

/-- A value of the page's date input element: the empty string or a
calendar date string `yyyy-mm-dd`. A non-empty date-input value always
contains hyphens, so `Number(value)` on it is always NaN. -/
inductive DateInput
  | empty
  | dateStr (s : String)
deriving DecidableEq, Repr

/-- `handleInputChange` on the date field (the date input's onChange uses
the same generic handler): a cleared input stores `''`; any date string
takes the `isNaN(Number(value))` branch and keeps `prev['date']`. The
date field therefore can never be moved to a different calendar day. -/
def handleDateInputChange (prev : String) : DateInput → String
  | .empty => ""
  | .dateStr _ => prev

/-! ## Account lifecycle read-time projection (admin `Accounts.fetchAccounts`) -/

/-- What the projection of `fetchAccounts` reads of one stored account
document: the stored `status` field (absent ↦ `none`), the stored
`assignedToPlayerUid` field, and the size of the entries query for the
account (`entriesSnapshot.size`). -/
structure StoredAccount where
  status : Option Status
  assignedToPlayerUid : Option String
  entryCount : ℕ
deriving DecidableEq, Repr

/-- JS truthiness of `accountData.assignedToPlayerUid`: falsy when the
field is absent or the empty string. -/
def StoredAccount.hasAssignedPlayer (a : StoredAccount) : Bool :=
  match a.assignedToPlayerUid with
  | none => false
  | some s => s != ""

/-- The status projection of `fetchAccounts`:
`let status = accountData.status || 'unused';
 if (entriesSnapshot.size === 0 || !accountData.assignedToPlayerUid)
   status = 'unused';
 else if (status === 'unused') { status = 'active'; updateDoc(...) }`.
Returns the effective status and whether the correcting `updateDoc`
(persisting `status: 'active'`) was issued. -/
def projectStatus (a : StoredAccount) : Status × Bool :=
  let status := a.status.getD .unused
  if a.entryCount = 0 || !a.hasAssignedPlayer then (.unused, false)
  else if status = .unused then (.active, true)
  else (status, false)

/-- The effective status the projection displays for one account. -/
def effectiveStatus (a : StoredAccount) : Status :=
  (projectStatus a).1

/-- How many correcting persistence writes one evaluation of the
projection issues for one account (the source issues one `updateDoc` in
the correcting branch, none otherwise). -/
def correctionWrites (a : StoredAccount) : ℕ :=
  if (projectStatus a).2 then 1 else 0

/-- The stored account document after one evaluation of the projection:
the correcting branch persists `status: 'active'`, every other branch
leaves storage untouched. -/
def applyProjection (a : StoredAccount) : StoredAccount :=
  if (projectStatus a).2 then { a with status := some .active } else a

/-- The effective statuses of an account set, as `fetchAccounts` maps the
projection over the snapshot. -/
def projectAccounts (l : List StoredAccount) : List Status :=
  l.map effectiveStatus

/-- Total correcting writes of one evaluation over an account set. -/
def projectionWrites (l : List StoredAccount) : ℕ :=
  (l.map correctionWrites).sum

/-- The stored account set after one evaluation of the projection. -/
def applyProjectionAll (l : List StoredAccount) : List StoredAccount :=
  l.map applyProjection

/-! ## Daily entries of one account (player `AccountEntry` page)

The store is modelled as the list of entry documents the page's entries
query returns: the entries of the one account and player the page shows,
ordered as fetched. -/

/-- A stored entry document, with the fields the account-entry page reads
and writes (the remaining settlement fields play no part in the claims'
code paths and carry through a submit unchanged, so they are not
modelled). -/
structure StoredEntry where
  id : ℕ
  date : String
  startingBalance : ℚ
  endingBalance : ℚ
  refillAmount : ℚ
  withdrawal : ℚ
  profitLoss : ℚ
  notes : String
deriving DecidableEq, Repr

/-- The form state `currentEntry` of the account-entry page: an optional
document id (present exactly when the form was hydrated from an existing
entry), the date field, the four numeric fields as JS values, the derived
profit/loss, and the notes. -/
structure CurrentEntry where
  id : Option ℕ
  date : String
  startingBalance : JSVal
  endingBalance : JSVal
  refillAmount : JSVal
  withdrawal : JSVal
  profitLoss : ℚ
  notes : String
deriving DecidableEq, Repr

/-- `entriesData.find(entry => entry.date === today)` of `fetchAccountData`. -/
def findTodayEntry (today : String) (entries : List StoredEntry) : Option StoredEntry :=
  entries.find? (fun e => e.date == today)

/-- The hydration of `currentEntry` in `fetchAccountData`: when an entry
for today exists it becomes the form state (`setCurrentEntry(todayEntry)`),
otherwise the initial state (zeros, dated today) is kept. -/
def hydrateCurrentEntry (today : String) (entries : List StoredEntry) : CurrentEntry :=
  match findTodayEntry today entries with
  | some e =>
      { id := some e.id
        date := e.date
        startingBalance := .num e.startingBalance
        endingBalance := .num e.endingBalance
        refillAmount := .num e.refillAmount
        withdrawal := .num e.withdrawal
        profitLoss := e.profitLoss
        notes := e.notes }
  | none =>
      { id := none
        date := today
        startingBalance := .num 0
        endingBalance := .num 0
        refillAmount := .num 0
        withdrawal := .num 0
        profitLoss := 0
        notes := "" }

/-- The `entryToSave` coercion of `handleSubmit` applied to the form state,
materialised as a stored document under the id `i`: every numeric field is
written as `field || 0`. -/
def entryToSave (cur : CurrentEntry) (i : ℕ) : StoredEntry :=
  { id := i
    date := cur.date
    startingBalance := cur.startingBalance.asNumber
    endingBalance := cur.endingBalance.asNumber
    refillAmount := cur.refillAmount.asNumber
    withdrawal := cur.withdrawal.asNumber
    profitLoss := cur.profitLoss
    notes := cur.notes }

/-- The persistence effect of `handleSubmit` on the account's entry list:
`if (currentEntry.id) updateDoc(doc(db, 'entries', currentEntry.id), ...)
 else addDoc(collection(db, 'entries'), ...)`. `freshId` is the id the
store generates for a created document. -/
def submitEntry (store : List StoredEntry) (cur : CurrentEntry) (freshId : ℕ) :
    List StoredEntry :=
  match cur.id with
  | some i => store.map (fun e => if e.id == i then entryToSave cur i else e)
  | none => store ++ [entryToSave cur freshId]

/-- How many stored entries of the account carry a given date. -/
def entriesOnDate (store : List StoredEntry) (d : String) : ℕ :=
  (store.filter (fun e => e.date == d)).length

/-! ## Aggregation (admin `Dashboard.fetchStats`) -/

/-- An account document as the admin dashboard reads it. -/
structure AccountDoc where
  id : String
  agentId : String
  assignedToPlayerUid : Option String
  status : Option Status
deriving DecidableEq, Repr

/-- An agent document as the admin dashboard reads it. -/
structure AgentDoc where
  id : String
  name : String
  commissionPercentage : Option ℚ
  flatCommission : Option ℚ
deriving DecidableEq, Repr

/-- An entry document as the admin dashboard reads it. -/
structure EntryDoc where
  accountId : String
  playerUid : String
  date : String
  profitLoss : Option ℚ
deriving DecidableEq, Repr

/-- `accounts.filter(acc => acc.agentId === agent.id)`. -/
def agentAccountsOf (agent : AgentDoc) (accounts : List AccountDoc) : List AccountDoc :=
  accounts.filter (fun acc => acc.agentId == agent.id)

/-- The `.filter(Boolean)` of `fetchStats` over the mapped
`assignedToPlayerUid` values: drops an absent field and the empty string
(both falsy). -/
def jsFilterBoolean (l : List (Option String)) : List String :=
  l.filterMap (fun o =>
    match o with
    | none => none
    | some s => if s = "" then none else some s)

/-- The agent rollup of `fetchStats` (`agentStatsData`). -/
structure AgentStats where
  id : String
  name : String
  accountCount : ℕ
  playerCount : ℕ
  totalProfit : ℚ
  commissionPercentage : ℚ
deriving DecidableEq, Repr

/-- One element of `agentStatsData`: accounts of the agent, distinct
truthy assigned player uids (`[...new Set(...map(...).filter(Boolean))]`),
profit summed (`entry.profitLoss || 0`) over entries whose account belongs
to the agent, and `agent.commissionPercentage || 0`. -/
def computeAgentStats (agent : AgentDoc) (accounts : List AccountDoc)
    (entries : List EntryDoc) : AgentStats :=
  let agentAccounts := agentAccountsOf agent accounts
  let assignedPlayerUids :=
    (jsFilterBoolean (agentAccounts.map (·.assignedToPlayerUid))).dedup
  let agentEntries :=
    entries.filter (fun entry => agentAccounts.any (fun acc => acc.id == entry.accountId))
  { id := agent.id
    name := agent.name
    accountCount := agentAccounts.length
    playerCount := assignedPlayerUids.length
    totalProfit := (agentEntries.map (fun e => e.profitLoss.getD 0)).sum
    commissionPercentage := agent.commissionPercentage.getD 0 }

/-- The "Commission Earned" figure of the agent dashboard:
`(agent.totalProfit * agent.commissionPercentage) / 100`. -/
def commissionEarned (s : AgentStats) : ℚ :=
  s.totalProfit * s.commissionPercentage / 100

/-- The flat commission as the agents page reports it, separately from the
percentage product: `${agent.flatCommission || 0}` in
`Commission: {...}% + $... flat`. -/
def flatCommissionDisplay (agent : AgentDoc) : ℚ :=
  agent.flatCommission.getD 0

/-- `accounts.filter(acc => acc.status === 'active').length`. -/
def activeCount (accounts : List AccountDoc) : ℕ :=
  (accounts.filter (fun a => a.status == some Status.active)).length

/-- The "Account Utilization" figure of the dashboard overview:
`totalAccounts > 0 ? (activeAccounts / totalAccounts) * 100 : 0`. -/
def accountUtilization (accounts : List AccountDoc) : ℚ :=
  if 0 < accounts.length then
    ((activeCount accounts : ℚ) / (accounts.length : ℚ)) * 100
  else 0

/-! ## Filtering (admin `Accounts` filter effect) -/

/-- A hydrated account as the admin accounts page filters it. -/
structure AccountView where
  id : String
  type : AccType
  username : String
  name : String
  agentId : String
  agentName : String
  assignedToPlayerName : String
  status : Status
deriving DecidableEq, Repr

/-- `needle` is a prefix of `hay` (character lists, JS `String` semantics). -/
def charListStartsWith : List Char → List Char → Bool
  | [], _ => true
  | _ :: _, [] => false
  | a :: as, b :: bs => a == b && charListStartsWith as bs

/-- `hay.includes(needle)` on character lists. -/
def charListIncludes (needle : List Char) : List Char → Bool
  | [] => charListStartsWith needle []
  | b :: bs => charListStartsWith needle (b :: bs) || charListIncludes needle bs

/-- JS `s.toLowerCase()` (ASCII-adequate, via `Char.toLower`). -/
def toLowerStr (s : String) : String :=
  ⟨s.data.map Char.toLower⟩

/-- JS `hay.includes(needle)`. -/
def strIncludes (hay needle : String) : Bool :=
  charListIncludes needle.data hay.data

/-- The `searchableText` of the filter effect:
`${account.type === 'pph' ? account.username : account.name}
 ${account.agentName} ${account.assignedToPlayerName || ''}`. -/
def searchableText (a : AccountView) : String :=
  (match a.type with | .pph => a.username | .legal => a.name)
    ++ " " ++ a.agentName ++ " " ++ a.assignedToPlayerName

/-- The free-text predicate: case-insensitive substring test of the search
term against the searchable text. -/
def textMatch (searchTerm : String) (a : AccountView) : Bool :=
  strIncludes (toLowerStr (searchableText a)) (toLowerStr searchTerm)

/-- The text stage: skipped for an empty search term (`if (searchTerm)`). -/
def applyTextFilter (searchTerm : String) (l : List AccountView) : List AccountView :=
  if searchTerm = "" then l else l.filter (textMatch searchTerm)

/-- The status/type dropdown of the accounts page:
`'all'`, one status, or one account type. -/
inductive StatusFilter
  | all
  | byStatus (s : Status)
  | byType (t : AccType)
deriving DecidableEq, Repr

/-- The status stage of the filter effect. -/
def applyStatusFilter (f : StatusFilter) (l : List AccountView) : List AccountView :=
  match f with
  | .all => l
  | .byStatus s => l.filter (fun a => a.status == s)
  | .byType t => l.filter (fun a => a.type == t)

/-- The agent dropdown: `'all'` or one agent id. -/
inductive AgentFilter
  | all
  | byAgent (agentId : String)
deriving DecidableEq, Repr

/-- The agent stage of the filter effect (`account.agentId === agentFilter`). -/
def applyAgentFilter (f : AgentFilter) (l : List AccountView) : List AccountView :=
  match f with
  | .all => l
  | .byAgent aid => l.filter (fun a => a.agentId == aid)

/-- The whole filter effect, in the source's order: text, then status/type,
then agent. -/
def filterAccounts (searchTerm : String) (sf : StatusFilter) (af : AgentFilter)
    (l : List AccountView) : List AccountView :=
  applyAgentFilter af (applyStatusFilter sf (applyTextFilter searchTerm l))

/-! ## Account creation (admin `Accounts.handleAddAccount` and its form) -/

/-- The `newAccount` form state of the accounts page. The numeric text
inputs are modelled by their parse class (`InputStr`); the player select's
value is a uid string, `''` meaning unassigned. -/
structure NewAccountForm where
  type : AccType
  username : String
  websiteURL : String
  password : String
  deal : String
  ip : String
  name : String
  sharePercentage : InputStr
  depositAmount : InputStr
  agentId : String
  assignedToPlayerUid : String
  status : Status
  referralPercentage : InputStr
deriving DecidableEq, Repr

/-- `parseFloat` on a form input by its parse class; `none` is NaN. -/
def jsParseFloat : InputStr → Option ℚ
  | .empty => none
  | .numeric q => some q
  | .nonNumeric => none

/-- JS truthiness of the raw input string: only the empty string is falsy
(the string `"0"` is truthy even though `Number("0") = 0`; such a field is
classed `numeric 0` here and still counts as truthy text). -/
def inputTruthy : InputStr → Bool
  | .empty => false
  | _ => true

/-- The account document `handleAddAccount` writes. A numeric field holds
`none` when absent and `some v` when written, `v` itself being `none` for
a stored NaN (the referral field is stored as a bare `parseFloat`). -/
structure AccountData where
  type : AccType
  agentId : String
  status : Status
  assignedToPlayerUid : Option String
  username : Option String
  websiteURL : Option String
  password : Option String
  deal : Option String
  ip : Option String
  name : Option String
  sharePercentage : Option ℚ
  depositAmount : Option ℚ
  referralPercentage : Option (Option ℚ)
deriving DecidableEq, Repr

/-- `handleAddAccount`: validation returns (`none`) when no account holder
is selected, or a required pph/legal field is blank; otherwise the written
document. Selecting a player forces `status: 'active'` ("Automatically set
to active when assigned"). -/
def handleAddAccount (f : NewAccountForm) : Option AccountData :=
  if f.agentId = "" then none
  else
    let base : AccountData :=
      { type := f.type
        agentId := f.agentId
        status := f.status
        assignedToPlayerUid := none
        username := none, websiteURL := none, password := none
        deal := none, ip := none, name := none
        sharePercentage := none, depositAmount := none
        referralPercentage := none }
    let base :=
      if f.assignedToPlayerUid ≠ "" then
        { base with
            assignedToPlayerUid := some f.assignedToPlayerUid
            status := .active }
      else base
    let withVariant : Option AccountData :=
      match f.type with
      | .pph =>
          if f.username = "" ∨ f.websiteURL = "" ∨ f.password = "" then none
          else some { base with
            username := some f.username.trim
            websiteURL := some f.websiteURL.trim
            password := some f.password.trim
            deal := some f.deal.trim
            ip := some f.ip.trim }
      | .legal =>
          if f.name = "" then none
          else some { base with
            name := some f.name.trim
            sharePercentage := some ((jsParseFloat f.sharePercentage).getD 0)
            depositAmount := some ((jsParseFloat f.depositAmount).getD 0) }
    withVariant.map (fun acc =>
      if inputTruthy f.referralPercentage then
        { acc with referralPercentage := some (jsParseFloat f.referralPercentage) }
      else acc)

/-- The status select's onChange in the creation modal: sets the chosen
status and resets the assigned player unless the choice is `'active'`. -/
def statusSelectChange (f : NewAccountForm) (v : Status) : NewAccountForm :=
  { f with
      status := v
      assignedToPlayerUid :=
        if v = Status.active then f.assignedToPlayerUid else "" }

/-- The player select's onChange in the creation modal: sets the uid and
forces the form status to `'active'` when a player is chosen. -/
def assignSelectChange (f : NewAccountForm) (uid : String) : NewAccountForm :=
  { f with
      assignedToPlayerUid := uid
      status := if uid ≠ "" then Status.active else f.status }

/-! ## Concrete instances used by scenario conjuncts, counterexamples and
witnesses -/

/-- A stored entry dated 2025-01-01, as a minimal store content. -/
def entryJan1 : StoredEntry :=
  { id := 1, date := "2025-01-01"
    startingBalance := 0, endingBalance := 0
    refillAmount := 0, withdrawal := 0
    profitLoss := 0, notes := "" }

/-- An agent with 10% commission and a $50 flat commission. -/
def agentTen : AgentDoc :=
  { id := "g1", name := "Agent One"
    commissionPercentage := some 10, flatCommission := some 50 }

/-- An account of `agentTen` assigned to player `p1`. -/
def accountOfAgentTen : AccountDoc :=
  { id := "a1", agentId := "g1"
    assignedToPlayerUid := some "p1", status := some .active }

/-- An entry of that account with a 2000 profit. -/
def entryProfit2000 : EntryDoc :=
  { accountId := "a1", playerUid := "p1"
    date := "2025-01-01", profitLoss := some 2000 }

/-- An account whose username and agent name do not contain "john" but
whose assigned player's name does. -/
def accountPlayerJohn : AccountView :=
  { id := "a1", type := .pph, username := "bigbook77", name := ""
    agentId := "g1", agentName := "Agent Smith"
    assignedToPlayerName := "John Doe", status := .active }

/-- A valid pph creation form that selects player `player9` while the
status dropdown is left on `'locked'`. -/
def formAssignedLocked : NewAccountForm :=
  { type := .pph, username := "u1", websiteURL := "https://x.example"
    password := "pw", deal := "", ip := "", name := ""
    sharePercentage := .empty, depositAmount := .empty
    agentId := "g1", assignedToPlayerUid := "player9"
    status := .locked, referralPercentage := .empty }

/-! ## Helper lemmas -/

/-- `(v || 0)` converts to the plain numeric reading of `v`: a blank or
NaN operand enters the formula as `0`, a number as itself. -/
theorem JSVal.orZero_toNum (v : JSVal) : v.orZero.toNum = some v.asNumber := by
  cases v with
  | num q =>
      by_cases h : q = 0 <;>
        simp [JSVal.orZero, JSVal.truthy, JSVal.toNum, JSVal.asNumber, h]
  | emptyStr => rfl
  | nan => rfl

/-- The profit/loss recomputation always yields a number: each operand is
guarded by `|| 0`, so the result is the four-term formula over the numeric
readings of the fields. -/
theorem computeProfitLoss_eq (sb eb w r : JSVal) :
    computeProfitLoss sb eb w r =
      some (eb.asNumber - sb.asNumber + w.asNumber - r.asNumber) := by
  simp [computeProfitLoss, JSVal.orZero_toNum, jsSub, jsAdd]

/-- Two `List.filter` stages commute. -/
theorem filter_swap {α : Type} (p q : α → Bool) (l : List α) :
    (l.filter p).filter q = (l.filter q).filter p := by
  induction l with
  | nil => rfl
  | cons a t ih =>
      cases hp : p a <;> cases hq : q a <;>
        simp [List.filter_cons, hp, hq, ih]

/-! ## C1 -/

/-- C1: the derived profitLoss equals
`endingBalance - startingBalance + withdrawal - refillAmount` with each of
the four inputs read as `0` when blank (or NaN); the same formula is the
one `handleEditEntry` recomputes on plain numbers; and the scenario entry
with startingBalance 1000, endingBalance 1200, withdrawal 50, refill 0
computes a profitLoss of 250. -/
theorem c1_profitLoss_formula :
    (∀ sb eb w r : JSVal,
      computeProfitLoss sb eb w r =
        some (eb.asNumber - sb.asNumber + w.asNumber - r.asNumber)) ∧
    (∀ sb eb w r : ℚ,
      computeProfitLoss (.num sb) (.num eb) (.num w) (.num r) =
        some (handleEditEntryProfitLoss sb eb w r)) ∧
    computeProfitLoss (.num 1000) (.num 1200) (.num 50) (.num 0) = some 250 := by
  refine ⟨computeProfitLoss_eq, fun sb eb w r => ?_, ?_⟩
  · simp [computeProfitLoss_eq, handleEditEntryProfitLoss, JSVal.asNumber]
  · simp only [computeProfitLoss_eq, JSVal.asNumber]
    norm_num

/-! ## C3 -/

/-- C3 counterexample: a non-numeric input to a field holding 5 is not
coerced to 0 — the field keeps its previous value 5 and the formula uses
5, where the claim predicts a result of 0. -/
theorem c3_nonNumeric_keeps_previous :
    computeProfitLoss (.num 0) (.num 0)
        (handleInputChange (.num 5) .nonNumeric) (.num 0) = some 5 ∧
      computeProfitLoss (.num 0) (.num 0)
        (handleInputChange (.num 5) .nonNumeric) (.num 0) ≠ some 0 := by
  constructor
  · simp only [handleInputChange, computeProfitLoss_eq, JSVal.asNumber]
    norm_num
  · simp only [handleInputChange, computeProfitLoss_eq, JSVal.asNumber]
    norm_num

/-- C3 (amended): the entry-computation path never throws and never
propagates a non-numeric value — the formula always yields a number (blank
and NaN operands enter as 0), and `handleInputChange` never stores NaN —
but a non-numeric non-blank input is not coerced to 0: the field keeps its
previous value, and only a blank input is read as 0 by the formula. -/
theorem c3_numeric_safety :
    (∀ sb eb w r : JSVal, (computeProfitLoss sb eb w r).isSome = true) ∧
    (∀ (prev : JSVal) (inp : InputStr),
      prev ≠ .nan → handleInputChange prev inp ≠ .nan) ∧
    (∀ prev : JSVal, handleInputChange prev .nonNumeric = prev) ∧
    (∀ sb eb w r : ℚ,
      computeProfitLoss (.num sb) (.num eb) (handleInputChange (.num w) .empty) (.num r) =
        some (eb - sb + 0 - r)) := by
  refine ⟨fun sb eb w r => ?_, fun prev inp h => ?_, fun prev => rfl, fun sb eb w r => ?_⟩
  · simp [computeProfitLoss_eq]
  · cases inp with
    | empty => simp [handleInputChange]
    | numeric q => simp [handleInputChange]
    | nonNumeric => simpa [handleInputChange] using h
  · simp [handleInputChange, computeProfitLoss_eq, JSVal.asNumber]

/-- The projection forces `'unused'` when the account has no entries or no
truthy assigned player, with no write. -/
theorem projectStatus_noUse (a : StoredAccount)
    (h : a.entryCount = 0 ∨ a.hasAssignedPlayer = false) :
    projectStatus a = (.unused, false) := by
  rcases h with h | h <;> simp [projectStatus, h]

/-- With at least one entry and a truthy assigned player, the projection
corrects a stored `'unused'` to `'active'` (with a write) and otherwise
passes the stored status through. -/
theorem projectStatus_live (a : StoredAccount)
    (h1 : a.entryCount ≠ 0) (h2 : a.hasAssignedPlayer = true) :
    projectStatus a =
      if a.status.getD .unused = .unused then (Status.active, true)
      else (a.status.getD .unused, false) := by
  simp [projectStatus, h1, h2]

/-- A second evaluation of the projection on the stored state the first
evaluation left behind displays the same effective status and writes
nothing. -/
theorem applyProjection_stable (a : StoredAccount) :
    effectiveStatus (applyProjection a) = effectiveStatus a ∧
    correctionWrites (applyProjection a) = 0 := by
  obtain ⟨st, asg, n⟩ := a
  by_cases h1 : n = 0
  · have hp := projectStatus_noUse ⟨st, asg, n⟩ (Or.inl h1)
    simp [applyProjection, effectiveStatus, correctionWrites, hp]
  by_cases h2 : StoredAccount.hasAssignedPlayer ⟨st, asg, n⟩ = true
  · by_cases h3 : st.getD .unused = .unused
    · have hp : projectStatus ⟨st, asg, n⟩ = (Status.active, true) := by
        rw [projectStatus_live _ h1 h2]; simp [h3]
      have happ : applyProjection ⟨st, asg, n⟩ = ⟨some .active, asg, n⟩ := by
        simp [applyProjection, hp]
      have h2b : StoredAccount.hasAssignedPlayer ⟨some Status.active, asg, n⟩ = true := h2
      have hp2 : projectStatus ⟨some Status.active, asg, n⟩ = (Status.active, false) := by
        rw [projectStatus_live _ h1 h2b]; simp
      simp [happ, effectiveStatus, correctionWrites, hp, hp2]
    · have hp : projectStatus ⟨st, asg, n⟩ = (st.getD .unused, false) := by
        rw [projectStatus_live _ h1 h2]; simp [h3]
      simp [applyProjection, effectiveStatus, correctionWrites, hp]
  · have hp := projectStatus_noUse ⟨st, asg, n⟩ (Or.inr (by simpa using h2))
    simp [applyProjection, effectiveStatus, correctionWrites, hp]

/-! ## C2 -/

/-- C2: the read-time projection maps every account with no entries or no
assigned player to effective status `'unused'` regardless of stored
status; a stored `'unused'` account with at least one entry and an
assigned player projects to `'active'` with exactly one correcting write
per evaluation; every evaluation writes at most once per account; and
re-evaluating over the account set the first evaluation left behind
displays the same effective statuses with zero further writes. -/
theorem c2_lifecycle_projection :
    (∀ a : StoredAccount,
      a.entryCount = 0 ∨ a.hasAssignedPlayer = false →
        effectiveStatus a = Status.unused) ∧
    (∀ a : StoredAccount,
      a.status = some Status.unused → a.entryCount ≠ 0 →
        a.hasAssignedPlayer = true →
        effectiveStatus a = Status.active ∧ correctionWrites a = 1) ∧
    (∀ a : StoredAccount, correctionWrites a ≤ 1) ∧
    (∀ l : List StoredAccount,
      projectAccounts (applyProjectionAll l) = projectAccounts l ∧
      projectionWrites (applyProjectionAll l) = 0) := by
  refine ⟨fun a h => ?_, fun a hs h1 h2 => ?_, fun a => ?_, fun l => ⟨?_, ?_⟩⟩
  · simp [effectiveStatus, projectStatus_noUse a h]
  · have hp : projectStatus a = (Status.active, true) := by
      rw [projectStatus_live a h1 h2]; simp [hs]
    simp [effectiveStatus, correctionWrites, hp]
  · unfold correctionWrites; split <;> omega
  · unfold projectAccounts applyProjectionAll
    rw [List.map_map]
    exact List.map_congr_left fun a _ => (applyProjection_stable a).1
  · unfold projectionWrites applyProjectionAll
    rw [List.map_map]
    refine List.sum_eq_zero fun x hx => ?_
    obtain ⟨a, _, rfl⟩ := List.mem_map.mp hx
    exact (applyProjection_stable a).2

/-! ## C6 -/

/-- C6 counterexample: the read-time projection does move an account out
of `'locked'`: an account stored `'locked'` with an assigned player but no
entries has effective status `'unused'`, not `'locked'`. -/
theorem c6_locked_projected_unused :
    effectiveStatus ⟨some Status.locked, some "p1", 0⟩ = Status.unused ∧
    Status.unused ≠ Status.locked :=
  ⟨rfl, by decide⟩

/-- C6 (amended): the projection never writes for a stored `'locked'`
account and leaves its stored status untouched; its effective status stays
`'locked'` whenever the account has at least one entry and an assigned
player (but is displayed `'unused'` otherwise); and the projection never
derives `'locked'` for an account not stored `'locked'`. -/
theorem c6_locked_only_manual_exit :
    (∀ a : StoredAccount, a.status = some Status.locked →
      correctionWrites a = 0 ∧ applyProjection a = a) ∧
    (∀ a : StoredAccount, a.status = some Status.locked →
      a.entryCount ≠ 0 → a.hasAssignedPlayer = true →
      effectiveStatus a = Status.locked) ∧
    (∀ a : StoredAccount, effectiveStatus a = Status.locked →
      a.status = some Status.locked) := by
  refine ⟨fun a hs => ?_, fun a hs h1 h2 => ?_, fun a h => ?_⟩
  · by_cases h1 : a.entryCount = 0
    · have hp := projectStatus_noUse a (Or.inl h1)
      simp [correctionWrites, applyProjection, hp]
    by_cases h2 : a.hasAssignedPlayer = true
    · have hp : projectStatus a = (Status.locked, false) := by
        rw [projectStatus_live a h1 h2]; simp [hs]
      simp [correctionWrites, applyProjection, hp]
    · have hp := projectStatus_noUse a (Or.inr (by simpa using h2))
      simp [correctionWrites, applyProjection, hp]
  · have hp : projectStatus a = (Status.locked, false) := by
      rw [projectStatus_live a h1 h2]; simp [hs]
    simp [effectiveStatus, hp]
  · by_cases h1 : a.entryCount = 0
    · have hp := projectStatus_noUse a (Or.inl h1)
      simp [effectiveStatus, hp] at h
    by_cases h2 : a.hasAssignedPlayer = true
    · by_cases h3 : a.status.getD .unused = .unused
      · have hp : projectStatus a = (Status.active, true) := by
          rw [projectStatus_live a h1 h2]; simp [h3]
        simp [effectiveStatus, hp] at h
      · have hp : projectStatus a = (a.status.getD .unused, false) := by
          rw [projectStatus_live a h1 h2]; simp [h3]
        rw [effectiveStatus, hp] at h
        cases hst : a.status with
        | none => rw [hst] at h; simp at h
        | some s =>
            rw [hst] at h
            simp only [Option.getD_some] at h
            rw [h]
    · have hp := projectStatus_noUse a (Or.inr (by simpa using h2))
      simp [effectiveStatus, hp] at h

/-! ## C4 -/

/-- C4: the submit path deduplicates per account and calendar date. The
date input can only keep the load-time date or be cleared (any date string
takes the `isNaN` branch of `handleInputChange`), hydration binds the form
to today's date and to the id of today's entry when one exists, and then
submitting updates the existing entry in place (same length, same ids)
whenever an entry for the account and that date exists, and appends
exactly one new record dated `today` only when none exists. The concrete
conjunct runs both branches: submitting over a store holding the entry
dated 2025-01-01 updates in place on 2025-01-01 and creates exactly one
record, with one entry per date, when loaded on 2025-01-02. -/
theorem c4_entry_dedup :
    (∀ (prev : String) (inp : DateInput),
      handleDateInputChange prev inp = prev ∨ handleDateInputChange prev inp = "") ∧
    (∀ (today : String) (entries : List StoredEntry),
      (hydrateCurrentEntry today entries).date = today ∧
      (hydrateCurrentEntry today entries).id =
        (findTodayEntry today entries).map (·.id)) ∧
    (∀ (store : List StoredEntry) (today : String) (cur : CurrentEntry) (freshId : ℕ),
      cur.id = (findTodayEntry today store).map (·.id) →
      cur.date = today →
      ((∃ e ∈ store, e.date = today) →
        (submitEntry store cur freshId).length = store.length ∧
        (submitEntry store cur freshId).map (·.id) = store.map (·.id)) ∧
      ((∀ e ∈ store, e.date ≠ today) →
        submitEntry store cur freshId = store ++ [entryToSave cur freshId] ∧
        (entryToSave cur freshId).date = today)) ∧
    ((submitEntry [entryJan1] (hydrateCurrentEntry "2025-01-01" [entryJan1]) 7).map (·.id) =
        [1] ∧
     entriesOnDate (submitEntry [entryJan1] (hydrateCurrentEntry "2025-01-01" [entryJan1]) 7)
        "2025-01-01" = 1 ∧
     (submitEntry [entryJan1] (hydrateCurrentEntry "2025-01-02" [entryJan1]) 7).length = 2 ∧
     entriesOnDate (submitEntry [entryJan1] (hydrateCurrentEntry "2025-01-02" [entryJan1]) 7)
        "2025-01-01" = 1 ∧
     entriesOnDate (submitEntry [entryJan1] (hydrateCurrentEntry "2025-01-02" [entryJan1]) 7)
        "2025-01-02" = 1) := by
  refine ⟨fun prev inp => ?_, fun today entries => ?_, ?_, rfl, rfl, rfl, rfl, rfl⟩
  · cases inp with
    | empty => exact Or.inr rfl
    | dateStr s => exact Or.inl rfl
  · cases hf : findTodayEntry today entries with
    | none => simp [hydrateCurrentEntry, hf]
    | some e =>
        have hd : e.date = today := by
          have hp := List.find?_some (by simpa [findTodayEntry] using hf)
          simpa using hp
        simp [hydrateCurrentEntry, hf, hd]
  intro store today cur freshId hid hdate
  constructor
  · rintro ⟨e, he, hed⟩
    have hsome : (findTodayEntry today store).isSome := by
      unfold findTodayEntry
      rw [List.find?_isSome]
      exact ⟨e, he, by simp [hed]⟩
    obtain ⟨e0, hf⟩ := Option.isSome_iff_exists.mp hsome
    rw [hf] at hid
    simp only [Option.map_some'] at hid
    unfold submitEntry
    rw [hid]
    refine ⟨by simp, ?_⟩
    rw [List.map_map]
    refine List.map_congr_left fun x _ => ?_
    by_cases hxe : (x.id == e0.id) = true
    · have hx : x.id = e0.id := beq_iff_eq.mp hxe
      simp [Function.comp, hxe, entryToSave, hx]
    · simp only [Function.comp_apply, hxe]
      simp [Bool.not_eq_true] at hxe
      simp [hxe]
  · intro hall
    have hnone : findTodayEntry today store = none := by
      unfold findTodayEntry
      rw [List.find?_eq_none]
      intro e he
      simpa using hall e he
    rw [hnone] at hid
    simp only [Option.map_none'] at hid
    unfold submitEntry
    rw [hid]
    exact ⟨rfl, hdate⟩

/-! ## C5 -/

/-- C5: commissionEarned equals totalProfit × commissionPercentage / 100;
the flat commission never enters the product (changing it changes
nothing); and for the scenario agent with commissionPercentage 10,
flatCommission 50 and totalProfit 2000 the commission earned is 200 while
the flat 50 is reported separately. -/
theorem c5_commission_product :
    (∀ (agent : AgentDoc) (accounts : List AccountDoc) (entries : List EntryDoc),
      commissionEarned (computeAgentStats agent accounts entries) =
        (computeAgentStats agent accounts entries).totalProfit *
          agent.commissionPercentage.getD 0 / 100) ∧
    (∀ (agent : AgentDoc) (accounts : List AccountDoc) (entries : List EntryDoc)
        (f : Option ℚ),
      commissionEarned
          (computeAgentStats { agent with flatCommission := f } accounts entries) =
        commissionEarned (computeAgentStats agent accounts entries)) ∧
    ((computeAgentStats agentTen [accountOfAgentTen] [entryProfit2000]).totalProfit = 2000 ∧
     commissionEarned (computeAgentStats agentTen [accountOfAgentTen] [entryProfit2000]) = 200 ∧
     flatCommissionDisplay agentTen = 50) := by
  refine ⟨fun agent accounts entries => rfl, fun agent accounts entries f => rfl, ?_, ?_, ?_⟩
  · simp [computeAgentStats, agentAccountsOf, agentTen, accountOfAgentTen, entryProfit2000]
  · simp [commissionEarned, computeAgentStats, agentAccountsOf, agentTen,
      accountOfAgentTen, entryProfit2000]
    norm_num
  · simp [flatCommissionDisplay, agentTen]

/-! ## C8 -/

/-- C8: account utilization is 0 on an empty account collection (the
division is never taken) and lies in [0, 100] on every collection. -/
theorem c8_utilization_bounds :
    accountUtilization [] = 0 ∧
    ∀ accounts : List AccountDoc,
      0 ≤ accountUtilization accounts ∧ accountUtilization accounts ≤ 100 := by
  constructor
  · simp [accountUtilization]
  · intro accounts
    unfold accountUtilization
    by_cases h : 0 < accounts.length
    · rw [if_pos h]
      have hle : ((activeCount accounts : ℚ)) ≤ ((accounts.length : ℚ)) := by
        unfold activeCount
        exact_mod_cast List.length_filter_le _ _
      have ht : (0 : ℚ) < (accounts.length : ℚ) := by exact_mod_cast h
      have hnn : (0 : ℚ) ≤ (activeCount accounts : ℚ) := by positivity
      constructor
      · positivity
      · have hdiv : (activeCount accounts : ℚ) / (accounts.length : ℚ) ≤ 1 :=
          (div_le_one ht).mpr hle
        nlinarith
    · rw [if_neg h]
      norm_num

/-! ## C9 -/

/-- C9: an agent's playerCount is the number of distinct truthy
assignedPlayerUid values among the agent's accounts — unassigned accounts
are ignored (prepending one leaves the count unchanged) and a duplicate
assignment is counted once (prepending a copy of an account leaves the
count unchanged). -/
theorem c9_distinct_player_count :
    (∀ (agent : AgentDoc) (accounts : List AccountDoc) (entries : List EntryDoc),
      (computeAgentStats agent accounts entries).playerCount =
        (jsFilterBoolean ((agentAccountsOf agent accounts).map
          (·.assignedToPlayerUid))).toFinset.card) ∧
    (∀ (agent : AgentDoc) (accounts : List AccountDoc) (entries : List EntryDoc)
        (acc : AccountDoc),
      acc.assignedToPlayerUid = none →
        (computeAgentStats agent (acc :: accounts) entries).playerCount =
          (computeAgentStats agent accounts entries).playerCount) ∧
    (∀ (agent : AgentDoc) (accounts : List AccountDoc) (entries : List EntryDoc)
        (acc : AccountDoc),
      (computeAgentStats agent (acc :: acc :: accounts) entries).playerCount =
        (computeAgentStats agent (acc :: accounts) entries).playerCount) := by
  have key : ∀ (agent : AgentDoc) (l : List AccountDoc) (entries : List EntryDoc),
      (computeAgentStats agent l entries).playerCount =
        (jsFilterBoolean ((agentAccountsOf agent l).map
          (·.assignedToPlayerUid))).toFinset.card := by
    intro agent l entries
    simp [computeAgentStats, List.card_toFinset]
  refine ⟨key, fun agent accounts entries acc h => ?_, fun agent accounts entries acc => ?_⟩
  · rw [key, key]
    by_cases hc : (acc.agentId == agent.id) = true
    · simp [agentAccountsOf, List.filter_cons, hc, jsFilterBoolean, h]
    · simp only [Bool.not_eq_true] at hc
      simp [agentAccountsOf, List.filter_cons, hc]
  · rw [key, key]
    by_cases hc : (acc.agentId == agent.id) = true
    · cases macc : acc.assignedToPlayerUid with
      | none => simp [agentAccountsOf, List.filter_cons, hc, jsFilterBoolean, macc]
      | some s =>
          by_cases hs : s = ""
          · simp [agentAccountsOf, List.filter_cons, hc, jsFilterBoolean, macc, hs]
          · simp [agentAccountsOf, List.filter_cons, hc, jsFilterBoolean, macc, hs,
              List.toFinset_cons, Finset.insert_idem]
    · simp only [Bool.not_eq_true] at hc
      simp [agentAccountsOf, List.filter_cons, hc]

/-- The text stage commutes with the status/type stage. -/
theorem text_status_comm (term : String) (sf : StatusFilter) (l : List AccountView) :
    applyTextFilter term (applyStatusFilter sf l) =
      applyStatusFilter sf (applyTextFilter term l) := by
  by_cases h : term = ""
  · simp [applyTextFilter, h]
  · cases sf with
    | all => simp [applyStatusFilter]
    | byStatus s =>
        simp only [applyTextFilter, applyStatusFilter, if_neg h]
        exact filter_swap _ _ _
    | byType t =>
        simp only [applyTextFilter, applyStatusFilter, if_neg h]
        exact filter_swap _ _ _

/-- The text stage commutes with the agent stage. -/
theorem text_agent_comm (term : String) (af : AgentFilter) (l : List AccountView) :
    applyTextFilter term (applyAgentFilter af l) =
      applyAgentFilter af (applyTextFilter term l) := by
  by_cases h : term = ""
  · simp [applyTextFilter, h]
  · cases af with
    | all => simp [applyAgentFilter]
    | byAgent aid =>
        simp only [applyTextFilter, applyAgentFilter, if_neg h]
        exact filter_swap _ _ _

/-- The status/type stage commutes with the agent stage. -/
theorem status_agent_comm (sf : StatusFilter) (af : AgentFilter) (l : List AccountView) :
    applyStatusFilter sf (applyAgentFilter af l) =
      applyAgentFilter af (applyStatusFilter sf l) := by
  cases sf <;> cases af <;>
    first
      | rfl
      | exact filter_swap _ _ _

/-! ## C7 -/

/-- C7: applying the free-text, status/type and agent filters in any of
the six orders yields the set the source's fixed order (text, then
status, then agent) yields; and a search term matching only the assigned
player's name keeps the account in the result (removing the player name
removes the account). -/
theorem c7_filter_order_independent :
    (∀ (l : List AccountView) (term : String) (sf : StatusFilter) (af : AgentFilter),
      applyAgentFilter af (applyStatusFilter sf (applyTextFilter term l)) =
        filterAccounts term sf af l ∧
      applyAgentFilter af (applyTextFilter term (applyStatusFilter sf l)) =
        filterAccounts term sf af l ∧
      applyStatusFilter sf (applyAgentFilter af (applyTextFilter term l)) =
        filterAccounts term sf af l ∧
      applyStatusFilter sf (applyTextFilter term (applyAgentFilter af l)) =
        filterAccounts term sf af l ∧
      applyTextFilter term (applyAgentFilter af (applyStatusFilter sf l)) =
        filterAccounts term sf af l ∧
      applyTextFilter term (applyStatusFilter sf (applyAgentFilter af l)) =
        filterAccounts term sf af l) ∧
    (filterAccounts "john" .all .all [accountPlayerJohn] = [accountPlayerJohn] ∧
     filterAccounts "john" .all .all
       [{ accountPlayerJohn with assignedToPlayerName := "" }] = []) := by
  refine ⟨fun l term sf af => ?_, by decide, by decide⟩
  refine ⟨rfl, ?_, ?_, ?_, ?_, ?_⟩ <;>
    simp only [filterAccounts, text_status_comm, text_agent_comm, status_agent_comm]

/-- What `handleAddAccount` writes for status and assignment: selecting a
player forces `'active'` regardless of the chosen status; with no player
selected the chosen status is written and no player field is set. -/
theorem handleAddAccount_status_assigned (f : NewAccountForm) (acc : AccountData)
    (h : handleAddAccount f = some acc) :
    (f.assignedToPlayerUid ≠ "" →
      acc.status = Status.active ∧
      acc.assignedToPlayerUid = some f.assignedToPlayerUid) ∧
    (f.assignedToPlayerUid = "" →
      acc.assignedToPlayerUid = none ∧ acc.status = f.status) := by
  obtain ⟨ty, un, url, pw, dl, ipf, nm, sp, dep, aid, asg, st, ref⟩ := f
  simp only [handleAddAccount] at h
  by_cases hag : aid = ""
  · simp [hag] at h
  rw [if_neg hag] at h
  by_cases hasg : asg = ""
  · simp only [hasg, ne_eq, not_true_eq_false, if_false, ite_false, if_neg] at h ⊢
    cases ty <;> simp only at h
    · by_cases hv : un = "" ∨ url = "" ∨ pw = ""
      · simp [hv] at h
      · simp only [if_neg hv, Option.map_some'] at h
        cases href : inputTruthy ref <;>
          simp only [href, if_true, if_false, Bool.false_eq_true, ite_false, ite_true] at h <;>
          (obtain rfl := (Option.some.injEq _ _).mp h.symm) <;> simp
    · by_cases hv : nm = ""
      · simp [hv] at h
      · simp only [if_neg hv, Option.map_some'] at h
        cases href : inputTruthy ref <;>
          simp only [href, Bool.false_eq_true, ite_false, ite_true] at h <;>
          (obtain rfl := (Option.some.injEq _ _).mp h.symm) <;> simp
  · simp only [ne_eq, hasg, not_false_eq_true, ite_true] at h
    cases ty <;> simp only at h
    · by_cases hv : un = "" ∨ url = "" ∨ pw = ""
      · simp [hv] at h
      · simp only [if_neg hv, Option.map_some'] at h
        cases href : inputTruthy ref <;>
          simp only [href, Bool.false_eq_true, ite_false, ite_true] at h <;>
          (obtain rfl := (Option.some.injEq _ _).mp h.symm) <;> simp [hasg]
    · by_cases hv : nm = ""
      · simp [hv] at h
      · simp only [if_neg hv, Option.map_some'] at h
        cases href : inputTruthy ref <;>
          simp only [href, Bool.false_eq_true, ite_false, ite_true] at h <;>
          (obtain rfl := (Option.some.injEq _ _).mp h.symm) <;> simp [hasg]

/-! ## C10 -/

/-- C10: a created account with a selected player is stored `'active'`
regardless of the chosen form status; every created account that carries
an assigned player is `'active'` (never non-active and assigned); choosing
any non-active status in the form clears the assigned player; and choosing
a player forces the form status to `'active'`. -/
theorem c10_assignment_status_coupling :
    (∀ (f : NewAccountForm) (acc : AccountData),
      handleAddAccount f = some acc →
        (f.assignedToPlayerUid ≠ "" →
          acc.status = Status.active ∧
          acc.assignedToPlayerUid = some f.assignedToPlayerUid) ∧
        (acc.assignedToPlayerUid ≠ none → acc.status = Status.active)) ∧
    (∀ (f : NewAccountForm) (v : Status), v ≠ Status.active →
      (statusSelectChange f v).assignedToPlayerUid = "" ∧
      (statusSelectChange f v).status = v) ∧
    (∀ (f : NewAccountForm) (uid : String), uid ≠ "" →
      (assignSelectChange f uid).status = Status.active) := by
  refine ⟨fun f acc h => ?_, fun f v hv => ?_, fun f uid hu => ?_⟩
  · obtain ⟨h1, h2⟩ := handleAddAccount_status_assigned f acc h
    refine ⟨h1, fun hne => ?_⟩
    by_cases hasg : f.assignedToPlayerUid = ""
    · exact absurd (h2 hasg).1 hne
    · exact (h1 hasg).1
  · exact ⟨by simp [statusSelectChange, hv], by simp [statusSelectChange]⟩
  · simp [assignSelectChange, hu]

end SportsCRM
